import Mathlib

/-!
Verification development for the `sage.crypto.public_key.key_exchange` package:
the `KeyExchangeBase` contract (`key_exchange_base.py`), the SIDH engine
(`sidh.py`) and the finite-field Diffie-Hellman scheme
(`finite_field_diffie_hellman.py`).

The elliptic-curve and finite-field machinery that these modules call lives in
the wider Sage library (outside the three files above); those parts are
modelled from the specification of the algebraic capability interface and are
marked `Modelled from the spec:` in their doc comments.
-/

namespace SageKE

/-! ## The field GF(p^2)

Modelled from the spec: the degree-2 extension of GF(p) with modulus x^2 + 1,
as built by `Fp.extension(modulus=x**2 + 1, name=i)` in `sidh.py`.
An element is `re + im * i` with `i^2 = -1`. -/

/-- Modelled from the spec: an element of the degree-2 extension field
GF(p^2) = GF(p)[i] with i^2 = -1. -/
structure Fp2 (p : ℕ) where
  re : ZMod p
  im : ZMod p
deriving DecidableEq

instance {p : ℕ} (n : ℕ) : OfNat (Fp2 p) n := ⟨⟨(n : ZMod p), 0⟩⟩

instance {p : ℕ} : Add (Fp2 p) := ⟨fun a b => ⟨a.re + b.re, a.im + b.im⟩⟩

instance {p : ℕ} : Neg (Fp2 p) := ⟨fun a => ⟨-a.re, -a.im⟩⟩

instance {p : ℕ} : Sub (Fp2 p) := ⟨fun a b => ⟨a.re - b.re, a.im - b.im⟩⟩

instance {p : ℕ} : Mul (Fp2 p) :=
  ⟨fun a b => ⟨a.re * b.re - a.im * b.im, a.re * b.im + a.im * b.re⟩⟩

/-- Modelled from the spec: binary exponentiation in GF(p), structural in a
fuel argument so that it reduces in the kernel. -/
def zpowFuel {p : ℕ} (a : ZMod p) : ℕ → ℕ → ZMod p
  | 0, _ => 1
  | _ + 1, 0 => 1
  | f + 1, n + 1 =>
    let h := zpowFuel a f ((n + 1) / 2)
    if (n + 1) % 2 = 1 then h * h * a else h * h

/-- Modelled from the spec: inversion in the prime field GF(p), via Fermat
exponentiation a^(p-2).  Agrees with the field inverse when `p` is prime
(and sends 0 to 0, which no caller relies on). -/
def fpInv {p : ℕ} (a : ZMod p) : ZMod p := zpowFuel a p (p - 2)

/-- Modelled from the spec: inversion in GF(p^2), by conjugation and the
norm map down to GF(p). -/
instance {p : ℕ} : Inv (Fp2 p) :=
  ⟨fun z =>
    let w := fpInv (z.re * z.re + z.im * z.im)
    ⟨z.re * w, (-z.im) * w⟩⟩

instance {p : ℕ} : Div (Fp2 p) := ⟨fun a b => a * b⁻¹⟩

/-! ## Points and curves

Modelled from the spec: elliptic curves in Weierstrass form
`y^2 = x^3 + a2*x^2 + a4*x + a6` (all curves appearing in `sidh.py` have
`a1 = a3 = 0`, and the isogeny steps below preserve that shape), with the
point at infinity represented by `Pt.zero`. -/

/-- Modelled from the spec: a point of an elliptic curve over GF(p^2). -/
inductive Pt (p : ℕ) where
  | zero : Pt p
  | aff : Fp2 p → Fp2 p → Pt p
deriving DecidableEq

/-- Modelled from the spec: an elliptic curve `y^2 = x^3 + a2 x^2 + a4 x + a6`
over GF(p^2). -/
structure Curve (p : ℕ) where
  a2 : Fp2 p
  a4 : Fp2 p
  a6 : Fp2 p
deriving DecidableEq

/-- Modelled from the spec: the point-on-curve test used by `P in E` and
`E.is_on_curve` in the source. -/
def onCurve {p : ℕ} (C : Curve p) : Pt p → Bool
  | .zero => true
  | .aff x y => y * y == x * x * x + C.a2 * (x * x) + C.a4 * x + C.a6

/-- Modelled from the spec: addition of points on
`y^2 = x^3 + a2 x^2 + a4 x + a6` by the chord-and-tangent law. -/
def addPt {p : ℕ} (C : Curve p) : Pt p → Pt p → Pt p
  | .zero, Q => Q
  | P, .zero => P
  | .aff x1 y1, .aff x2 y2 =>
    if x1 = x2 ∧ y2 = -y1 then .zero
    else
      let lam :=
        if x1 = x2 then (3 * (x1 * x1) + 2 * (C.a2 * x1) + C.a4) / (2 * y1)
        else (y2 - y1) / (x2 - x1)
      let x3 := lam * lam - C.a2 - x1 - x2
      .aff x3 (lam * (x1 - x3) - y1)

/-- Modelled from the spec: scalar multiplication of a point by a natural
number, by binary double-and-add, structural in a fuel argument. -/
def smulFuel {p : ℕ} (C : Curve p) : ℕ → ℕ → Pt p → Pt p
  | 0, _, _ => .zero
  | _ + 1, 0, _ => .zero
  | f + 1, n + 1, P =>
    let Q := smulFuel C f ((n + 1) / 2) P
    let QQ := addPt C Q Q
    if (n + 1) % 2 = 1 then addPt C QQ P else QQ

/-- Modelled from the spec: `n * P` on the curve `C`. -/
def smul {p : ℕ} (C : Curve p) (n : ℕ) (P : Pt p) : Pt p := smulFuel C (n + 1) n P

/-- Modelled from the spec: the j-invariant of a curve, the isomorphism-class
invariant returned by `E.j_invariant()`. -/
def jInv {p : ℕ} (C : Curve p) : Fp2 p :=
  let b2 := 4 * C.a2
  let b4 := 2 * C.a4
  let b6 := 4 * C.a6
  let b8 := 4 * (C.a2 * C.a6) - C.a4 * C.a4
  let c4 := b2 * b2 - 24 * b4
  let disc := -(b2 * b2 * b8) - 8 * (b4 * b4 * b4) - 27 * (b6 * b6) + 9 * (b2 * b4 * b6)
  c4 * c4 * c4 * disc⁻¹

/-! ## Prime-degree isogeny steps (Velu) and factored isogenies

Modelled from the spec: `E.isogeny(K, algorithm=factored)` of the algebraic
library decomposes the isogeny with kernel generated by `K` into prime-degree
steps; each step is given by the Velu formulas, which on curves with
`a1 = a3 = 0` are normalized, so the point map is `(x, y) ↦ (F x, y * F' x)`. -/

/-- Modelled from the spec: codomain of the degree-2 isogeny with kernel point
`(x0, 0)`. -/
def velu2 {p : ℕ} (C : Curve p) (x0 : Fp2 p) : Curve p :=
  let t := 3 * (x0 * x0) + 2 * (C.a2 * x0) + C.a4
  let w := x0 * t
  ⟨C.a2, C.a4 - 5 * t, C.a6 - 4 * (C.a2 * t) - 7 * w⟩

/-- Modelled from the spec: evaluation of the degree-2 isogeny with kernel
point `(x0, 0)`. -/
def velu2eval {p : ℕ} (C : Curve p) (x0 : Fp2 p) : Pt p → Pt p
  | .zero => .zero
  | .aff x y =>
    if x = x0 then .zero
    else
      let t := 3 * (x0 * x0) + 2 * (C.a2 * x0) + C.a4
      let d := (x - x0)⁻¹
      .aff (x + t * d) (y * (1 - t * (d * d)))

/-- Modelled from the spec: codomain of the degree-3 isogeny with kernel
generated by the order-3 point `(x0, y0)`. -/
def velu3 {p : ℕ} (C : Curve p) (x0 y0 : Fp2 p) : Curve p :=
  let gx := 3 * (x0 * x0) + 2 * (C.a2 * x0) + C.a4
  let gy := -(2 * y0)
  let t := 2 * gx
  let u := gy * gy
  let w := u + x0 * t
  ⟨C.a2, C.a4 - 5 * t, C.a6 - 4 * (C.a2 * t) - 7 * w⟩

/-- Modelled from the spec: evaluation of the degree-3 isogeny with kernel
generated by the order-3 point `(x0, y0)`. -/
def velu3eval {p : ℕ} (C : Curve p) (x0 y0 : Fp2 p) : Pt p → Pt p
  | .zero => .zero
  | .aff x y =>
    if x = x0 then .zero
    else
      let gx := 3 * (x0 * x0) + 2 * (C.a2 * x0) + C.a4
      let gy := -(2 * y0)
      let t := 2 * gx
      let u := gy * gy
      let d := (x - x0)⁻¹
      .aff (x + t * d + u * (d * d)) (y * (1 - t * (d * d) - 2 * (u * (d * d * d))))

/-- Modelled from the spec: one prime-degree factor of a factored isogeny:
its domain curve, its prime degree (2 or 3) and its kernel point. -/
structure Step (p : ℕ) where
  src : Curve p
  ell : ℕ
  kx : Fp2 p
  ky : Fp2 p
deriving DecidableEq

/-- Modelled from the spec: codomain curve of one prime-degree factor. -/
def Step.codomain {p : ℕ} (s : Step p) : Curve p :=
  if s.ell = 2 then velu2 s.src s.kx else velu3 s.src s.kx s.ky

/-- Modelled from the spec: evaluation of one prime-degree factor at a point. -/
def Step.eval {p : ℕ} (s : Step p) (P : Pt p) : Pt p :=
  if s.ell = 2 then velu2eval s.src s.kx P else velu3eval s.src s.kx s.ky P

/-- Modelled from the spec: a composite isogeny, as its domain curve together
with the list of prime-degree factors produced by the factored algorithm. -/
structure Isogeny (p : ℕ) where
  dom : Curve p
  steps : List (Step p)
deriving DecidableEq

/-- Modelled from the spec: the codomain of a composite isogeny. -/
def Isogeny.codomain {p : ℕ} (φ : Isogeny p) : Curve p :=
  φ.steps.foldl (fun _ s => s.codomain) φ.dom

/-- Modelled from the spec: evaluation of a composite isogeny at a point of
its domain. -/
def Isogeny.eval {p : ℕ} (φ : Isogeny p) (P : Pt p) : Pt p :=
  φ.steps.foldl (fun Q s => s.eval Q) P

/-- Modelled from the spec: the enumeration of prime-degree factors exposed
by `iso.factors()`. -/
def Isogeny.factors {p : ℕ} (φ : Isogeny p) : List (Step p) := φ.steps

/-- The ℓ-adic valuation of a natural number, structural in a fuel argument;
this is `n.valuation(l)` in the source. -/
def adicValFuel (l : ℕ) : ℕ → ℕ → ℕ
  | 0, _ => 0
  | f + 1, n => if 2 ≤ l ∧ n ≠ 0 ∧ n % l = 0 then adicValFuel l f (n / l) + 1 else 0

/-- The ℓ-adic valuation `n.valuation(l)`. -/
def adicVal (l n : ℕ) : ℕ := adicValFuel l n n

/-- Modelled from the spec: the order of a point, as computed by the algebraic
library, specialized to the supersingular family used by SIDH, where every
point order divides `p + 1 = 2^a * 3^b`. -/
def pointOrder {p : ℕ} (C : Curve p) (K : Pt p) : ℕ :=
  let a := adicVal 2 (p + 1)
  let b := adicVal 3 (p + 1)
  let x := ((List.range (a + 1)).find? fun i => smul C (2 ^ i * 3 ^ b) K == Pt.zero).getD a
  let y := ((List.range (b + 1)).find? fun j => smul C (2 ^ x * 3 ^ j) K == Pt.zero).getD b
  2 ^ x * 3 ^ y

/-- The x-coordinate of an affine point (0 for the point at infinity). -/
def Pt.xc {p : ℕ} : Pt p → Fp2 p
  | .zero => 0
  | .aff x _ => x

/-- The y-coordinate of an affine point (0 for the point at infinity). -/
def Pt.yc {p : ℕ} : Pt p → Fp2 p
  | .zero => 0
  | .aff _ y => y

/-- Modelled from the spec: the factored-isogeny decomposition: repeatedly
split off a prime-degree step whose kernel is `(order / ℓ) * K` and push the
kernel generator through it. -/
def factorStepsFuel {p : ℕ} : ℕ → Curve p → Pt p → List (Step p)
  | 0, _, _ => []
  | f + 1, C, K =>
    let n := pointOrder C K
    if n ≤ 1 then []
    else
      let l := if n % 2 = 0 then 2 else 3
      let K1 := smul C (n / l) K
      let s : Step p := ⟨C, l, K1.xc, K1.yc⟩
      s :: factorStepsFuel f s.codomain (s.eval K)

/-- Modelled from the spec: `start_curve.isogeny(K, algorithm=factored)`. -/
def factoredIsogeny {p : ℕ} (C : Curve p) (K : Pt p) : Isogeny p :=
  ⟨C, factorStepsFuel (p + 2) C K⟩

/-! ## Python error values -/

/-- The error values raised by the key-exchange modules: `ValueError`,
`RuntimeError`, and (for a call with a missing required argument)
`TypeError`. -/
inductive PyError where
  | valueError : String → PyError
  | typeError : String → PyError
  | runtimeError : String → PyError
deriving DecidableEq

/-! ## The SIDH scheme (`sidh.py`) -/

/-- The state of a constructed `SIDH` instance: the exponents derived in
`__init__` together with the curve and the four basis points.  The prime
characteristic `_p` is the type parameter. -/
structure SIDH (p : ℕ) where
  e_A : ℕ
  e_B : ℕ
  E : Curve p
  PA : Pt p
  QA : Pt p
  PB : Pt p
  QB : Pt p
deriving DecidableEq

/-- Source `SIDH.__init__`: derive `e_A` and `e_B` from the characteristic, check the
shape of the characteristic, the degree of the base field, and that all four
points lie on the curve; fail before any key material exists.  The base field
is only modelled for degree 2 (the type `Fp2`), so its degree is passed as the
number `fieldDegree`, which is all `__init__` inspects. -/
def SIDH.init (p : ℕ) (fieldDegree : ℕ) (E : Curve p) (PA QA PB QB : Pt p) :
    Except PyError (SIDH p) :=
  let e_A := adicVal 2 (p + 1)
  let e_B := adicVal 3 (p + 1)
  if 2 ^ e_A * 3 ^ e_B - 1 ≠ p then
    .error (.valueError "curve must be over characteristic 2^e_A * 3^e_B - 1")
  else if fieldDegree ≠ 2 then
    .error (.valueError "curve must be defined over a degree two field extension")
  else if ¬ onCurve E PA then .error (.valueError "PA is not on the curve")
  else if ¬ onCurve E QA then .error (.valueError "QA is not on the curve")
  else if ¬ onCurve E PB then .error (.valueError "PB is not on the curve")
  else if ¬ onCurve E QB then .error (.valueError "QB is not on the curve")
  else .ok ⟨e_A, e_B, E, PA, QA, PB, QB⟩

/-- Source `SIDH.parameters`: the tuple `(p, E, PA, QA, PB, QB)`. -/
def SIDH.parameters {p : ℕ} (s : SIDH p) :
    ℕ × Curve p × Pt p × Pt p × Pt p × Pt p :=
  (p, s.E, s.PA, s.QA, s.PB, s.QB)

/-- Modelled from the spec: `random.randint(0, hi)` of the process-wide random
source, made explicit by a seed argument; the result is uniform in the
inclusive range `[0, hi]`. -/
def randint0 (hi seed : ℕ) : ℕ := seed % (hi + 1)

/-- Source `SIDH.alice_secret_key`: `random.randint(0, e_A)`. -/
def SIDH.alice_secret_key {p : ℕ} (s : SIDH p) (seed : ℕ) : ℕ :=
  randint0 s.e_A seed

/-- Source `SIDH.bob_secret_key`: `random.randint(0, e_B)`. -/
def SIDH.bob_secret_key {p : ℕ} (s : SIDH p) (seed : ℕ) : ℕ :=
  randint0 s.e_B seed

/-- Source `SIDH.secret_isogeny_path`: the isogeny with kernel generated by
`P + secret_key * Q`, computed by the factored algorithm, together with the
path of j-invariants: that of the start curve followed by that of the codomain
of every prime-degree factor. -/
def secret_isogeny_path {p : ℕ} (start_curve : Curve p) (secret_key : ℕ)
    (P Q : Pt p) : Isogeny p × List (Fp2 p) :=
  let iso := factoredIsogeny start_curve (addPt start_curve P (smul start_curve secret_key Q))
  (iso, jInv start_curve :: iso.factors.map fun s => jInv s.codomain)

/-- Source `SIDH.alice_public_key`: walk from `E` with basis `(PA, QA)`; the public
key is the codomain together with the images of `PB` and `QB`. -/
def SIDH.alice_public_key {p : ℕ} (s : SIDH p) (alice_secret_key : ℕ) :
    Curve p × Pt p × Pt p :=
  let r := secret_isogeny_path s.E alice_secret_key s.PA s.QA
  (r.1.codomain, r.1.eval s.PB, r.1.eval s.QB)

/-- Source `SIDH.bob_public_key`: walk from `E` with basis `(PB, QB)`; the public key
is the codomain together with the images of `PA` and `QA`. -/
def SIDH.bob_public_key {p : ℕ} (s : SIDH p) (bob_secret_key : ℕ) :
    Curve p × Pt p × Pt p :=
  let r := secret_isogeny_path s.E bob_secret_key s.PB s.QB
  (r.1.codomain, r.1.eval s.PA, r.1.eval s.QA)

/-- Source `SIDH.alice_compute_shared_secret`: walk from Bob's curve with the
transmitted basis and Alice's secret; the shared secret is the j-invariant of
the final codomain. -/
def SIDH.alice_compute_shared_secret {p : ℕ} (s : SIDH p)
    (alice_secret_key : ℕ) (bob_public_key : Curve p × Pt p × Pt p) : Fp2 p :=
  let r := secret_isogeny_path bob_public_key.1 alice_secret_key
    bob_public_key.2.1 bob_public_key.2.2
  jInv r.1.codomain

/-- Source `SIDH.bob_compute_shared_secret`: symmetric to Alice's computation. -/
def SIDH.bob_compute_shared_secret {p : ℕ} (s : SIDH p)
    (bob_secret_key : ℕ) (alice_public_key : Curve p × Pt p × Pt p) : Fp2 p :=
  let r := secret_isogeny_path alice_public_key.1 bob_secret_key
    alice_public_key.2.1 alice_public_key.2.2
  jInv r.1.codomain

/-! ## Parameter-set generation from a prime (`parameter_set_from_prime`) -/

/-- Modelled from the spec: the primality test `p.is_prime()` of the algebraic
library, via the least factor. -/
def isPrime (n : ℕ) : Bool := decide (2 ≤ n) && decide (n.minFac = n)

/-- All elements of GF(p^2), listed by their coordinate pairs. -/
def allFp2 (p : ℕ) : List (Fp2 p) :=
  (List.range p).flatMap fun a => (List.range p).map fun b => ⟨(a : ZMod p), (b : ZMod p)⟩

/-- Modelled from the spec: the squareness test `s.is_square()` in GF(p^2). -/
def fp2IsSquare {p : ℕ} (s : Fp2 p) : Bool := (allFp2 p).any fun r => r * r == s

/-- Modelled from the spec: the squareness test `s.is_square()` in GF(p). -/
def fpIsSquare (p : ℕ) (s : ZMod p) : Bool :=
  (List.range p).any fun r => (r : ZMod p) * (r : ZMod p) == s

/-- The parity rule of `canonical_square_root` in `sidh.py`: writing
`r = alpha + beta * i` with lifts in `[0, p)`, `alpha` is even if nonzero,
else `beta` is even. -/
def parityCanonical {p : ℕ} (r : Fp2 p) : Bool :=
  (decide (r.re.val ≠ 0) && decide (r.re.val % 2 = 0)) ||
    (decide (r.re.val = 0) && decide (r.im.val % 2 = 0))

/-- Source `canonical_square_root` of `sidh.py`: of the two square roots `±r` of a
square `s`, the one selected by the parity rule.  Modelled from the spec: the
library square root is replaced by a search over the field; the parity rule
determines the same canonical choice regardless of which root the library
returns.  Returns 0 when `s` is not a square (never relied on: every caller
checks squareness first). -/
def canonical_square_root {p : ℕ} (s : Fp2 p) : Fp2 p :=
  ((allFp2 p).find? fun r => r * r == s && parityCanonical r).getD 0

/-- The starting curve `y^2 = x^3 + 6 x^2 + x` of `parameter_set_from_prime`. -/
def psfpCurve (p : ℕ) : Curve p := ⟨6, 1, 0⟩

/-- The polynomial `f = x^3 + 6 x^2 + x` evaluated in GF(p^2). -/
def fEval {p : ℕ} (x : Fp2 p) : Fp2 p := x * x * x + 6 * (x * x) + x

/-- The polynomial `f = x^3 + 6 x^2 + x` evaluated in GF(p). -/
def fpEval {p : ℕ} (x : ZMod p) : ZMod p := x * x * x + 6 * (x * x) + x

/-- The `trial_points` generator of `parameter_set_from_prime` at index `c`:
the point with x-coordinate `i + c`, when `f(i + c)` is a square and the
canonical root passes the on-curve check. -/
def trial_point (p : ℕ) (c : ℕ) : Option (Pt p) :=
  let x0 : Fp2 p := ⟨(c : ZMod p), 1⟩
  let y0 := fEval x0
  if fp2IsSquare y0 then
    let r := canonical_square_root y0
    if onCurve (psfpCurve p) (.aff x0 r) then some (.aff x0 r) else none
  else none

/-- The two order-2 points `E(-3 ± 2 * canonical_square_root(2), 0)` used to
recognize `PA` candidates. -/
def PA_mults (p : ℕ) : List (Pt p) :=
  let r := canonical_square_root (2 : Fp2 p)
  [.aff (-3 + 2 * r) 0, .aff (-3 - 2 * r) 0]

/-- The `PA` candidate at trial index `c`: the cofactor multiple of the trial
point, accepted when its `2^(e_A - 1)` multiple is one of the two recognized
2-torsion points. -/
def candPA (p : ℕ) (c : ℕ) : Option (Pt p) :=
  (trial_point p c).bind fun R =>
    let e_A := adicVal 2 (p + 1)
    let e_B := adicVal 3 (p + 1)
    let PA := smul (psfpCurve p) (3 ^ e_B) R
    if smul (psfpCurve p) (2 ^ (e_A - 1)) PA ∈ PA_mults p then some PA else none

/-- The `QA` candidate at trial index `c`: accepted when the `2^(e_A - 1)`
multiple is the point `E(0, 0)`. -/
def candQA (p : ℕ) (c : ℕ) : Option (Pt p) :=
  (trial_point p c).bind fun R =>
    let e_A := adicVal 2 (p + 1)
    let e_B := adicVal 3 (p + 1)
    let QA := smul (psfpCurve p) (3 ^ e_B) R
    if smul (psfpCurve p) (2 ^ (e_A - 1)) QA = Pt.aff 0 0 then some QA else none

/-- The order test `P.order() == 3^e`: group-theoretically exact, an order is
`3^e` precisely when `3^e * P = O` and (for `e > 0`) `3^(e-1) * P ≠ O`. -/
def hasOrderPow3 {p : ℕ} (C : Curve p) (P : Pt p) (e : ℕ) : Bool :=
  (smul C (3 ^ e) P == Pt.zero) && (decide (e = 0) || !(smul C (3 ^ (e - 1)) P == Pt.zero))

/-- The `PB` candidate at trial index `c`: `f(c)` must be a square already in
GF(p); the candidate is accepted when it has order `3^e_B`. -/
def candPB (p : ℕ) (c : ℕ) : Option (Pt p) :=
  let fc : ZMod p := fpEval (c : ZMod p)
  if fpIsSquare p fc then
    let e_A := adicVal 2 (p + 1)
    let e_B := adicVal 3 (p + 1)
    let PB := smul (psfpCurve p) (2 ^ (e_A - 1))
      (.aff ⟨(c : ZMod p), 0⟩ (canonical_square_root ⟨fc, 0⟩))
    if hasOrderPow3 (psfpCurve p) PB e_B then some PB else none
  else none

/-- The `QB` candidate at trial index `c`: `f(c)` must be a non-square in
GF(p) but a square in GF(p^2); the candidate is accepted when it has order
`3^e_B`. -/
def candQB (p : ℕ) (c : ℕ) : Option (Pt p) :=
  let fc : ZMod p := fpEval (c : ZMod p)
  if fpIsSquare p fc || !(fp2IsSquare (⟨fc, 0⟩ : Fp2 p)) then none
  else
    let e_A := adicVal 2 (p + 1)
    let e_B := adicVal 3 (p + 1)
    let QB := smul (psfpCurve p) (2 ^ (e_A - 1))
      (.aff ⟨(c : ZMod p), 0⟩ (canonical_square_root ⟨fc, 0⟩))
    if hasOrderPow3 (psfpCurve p) QB e_B then some QB else none

/-- A bounded first-match loop starting at candidate index `c` with `n`
candidates left to examine. -/
def searchFrom {α : Type} (f : ℕ → Option α) : ℕ → ℕ → Option α
  | 0, _ => none
  | n + 1, c =>
    match f c with
    | some a => some a
    | none => searchFrom f n (c + 1)

/-- The `for c in range(bound): ... else: raise` loop shape of the four
basis-point searches: examine at most `bound` candidates, yielding the first
accepted one. -/
def boundedSearch {α : Type} (bound : ℕ) (f : ℕ → Option α) : Option α :=
  searchFrom f bound 0

/-- Source `SIDH.parameter_set_from_prime`: check primality, then run the four
bounded searches for `PA`, `QA`, `PB`, `QB` in order, failing explicitly when
one exhausts its `p` trial indices, and finally construct the instance through
`SIDH.init` (the `cls(E, PA, QA, PB, QB)` call). -/
def parameter_set_from_prime (n : ℕ) : Except PyError (SIDH n) :=
  if isPrime n then
    match boundedSearch n (candPA n) with
    | none => .error (.valueError
        "failed to find PA, try using SIDH constructor directly and specify all parameters")
    | some PA =>
      match boundedSearch n (candQA n) with
      | none => .error (.valueError
          "failed to find QA, try using SIDH constructor directly and specify all parameters")
      | some QA =>
        match boundedSearch n (candPB n) with
        | none => .error (.valueError
            "failed to find PB, try using SIDH constructor directly and specify all parameters")
        | some PB =>
          match boundedSearch n (candQB n) with
          | none => .error (.valueError
              "failed to find QB, try using SIDH constructor directly and specify all parameters")
          | some QB => SIDH.init n 2 (psfpCurve n) PA QA PB QB
  else .error (.valueError "p must be prime")

/-! ## Named parameter sets -/

/-- The toy curve `y^2 = x^3 + (329 i + 423) x^2 + x` over GF(431^2). -/
def toyE : Curve 431 := ⟨⟨423, 329⟩, 1, 0⟩

/-- The toy basis point `PA = (100 i + 248, 304 i + 199)`. -/
def toyPA : Pt 431 := .aff ⟨248, 100⟩ ⟨199, 304⟩

/-- The toy basis point `QA = (426 i + 394, 51 i + 79)`. -/
def toyQA : Pt 431 := .aff ⟨394, 426⟩ ⟨79, 51⟩

/-- The toy basis point `PB = (358 i + 275, 410 i + 104)`. -/
def toyPB : Pt 431 := .aff ⟨275, 358⟩ ⟨104, 410⟩

/-- The toy basis point `QB = (20 i + 185, 281 i + 239)`. -/
def toyQB : Pt 431 := .aff ⟨185, 20⟩ ⟨239, 281⟩

/-- The `toy` named parameter set, constructed through `SIDH.init` exactly as
the `name == toy` branch constructs `cls(E, PA, QA, PB, QB)`. -/
def toy_parameter_set : Except PyError (SIDH 431) :=
  SIDH.init 431 2 toyE toyPA toyQA toyPB toyQB

/-- Source `KeyExchangeBase.named_parameter_set`: always raises the unknown-name
`ValueError`, whose message contains the class and the offending name. -/
def KeyExchangeBase.named_parameter_set (α : Type) (cls name : String) :
    Except PyError α :=
  .error (.valueError ("Unknown parameter set name \"" ++ name ++ "\" for " ++ cls))

/-- Source `SIDH.named_parameter_set`: the `toy` branch constructs the fixed toy set,
the four standard names fix `(e_A, e_B)` and derive the set from the prime
`2^e_A * 3^e_B - 1`; any other name reaches
`return super().named_parameter_set()`, a call that omits the required `name`
argument and therefore raises a `TypeError`, not the unknown-name
`ValueError` of the base class. -/
def SIDH.named_parameter_set (name : String) :
    Except PyError ((q : ℕ) × SIDH q) :=
  if name = "toy" then toy_parameter_set.map fun s => ⟨431, s⟩
  else if name = "p434" then
    (parameter_set_from_prime (2 ^ 0xD8 * 3 ^ 0x89 - 1)).map fun s => ⟨_, s⟩
  else if name = "p503" then
    (parameter_set_from_prime (2 ^ 0xFA * 3 ^ 0x9F - 1)).map fun s => ⟨_, s⟩
  else if name = "p610" then
    (parameter_set_from_prime (2 ^ 0x131 * 3 ^ 0xC0 - 1)).map fun s => ⟨_, s⟩
  else if name = "p751" then
    (parameter_set_from_prime (2 ^ 0x174 * 3 ^ 0xEF - 1)).map fun s => ⟨_, s⟩
  else .error (.typeError
    "named_parameter_set missing 1 required positional argument: name")

/-! ## The generic key-exchange contract (`key_exchange_base.py`) -/

deriving instance DecidableEq for Except

/-- The abstract method surface of `KeyExchangeBase` that `do_key_exchange`
and the key-pair helpers are built on.  The two secret-key samplers draw from
the process-wide random source, made explicit by a seed argument. -/
structure KeyExchangeScheme (SK PK SS : Type) where
  alice_secret_key : ℕ → SK
  bob_secret_key : ℕ → SK
  alice_public_key : SK → PK
  bob_public_key : SK → PK
  alice_compute_shared_secret : SK → PK → SS
  bob_compute_shared_secret : SK → PK → SS

/-- Source `KeyExchangeBase.alice_key_pair`: sample a secret key and derive the
public key. -/
def alice_key_pair {SK PK SS : Type} (sch : KeyExchangeScheme SK PK SS)
    (seed : ℕ) : SK × PK :=
  let alice_sk := sch.alice_secret_key seed
  (alice_sk, sch.alice_public_key alice_sk)

/-- Source `KeyExchangeBase.bob_key_pair`: sample a secret key and derive the public
key. -/
def bob_key_pair {SK PK SS : Type} (sch : KeyExchangeScheme SK PK SS)
    (seed : ℕ) : SK × PK :=
  let bob_sk := sch.bob_secret_key seed
  (bob_sk, sch.bob_public_key bob_sk)

/-- Source `KeyExchangeBase.do_key_exchange`: generate both key pairs, compute both
shared secrets, raise `RuntimeError` when they differ, and otherwise return
the five artifacts. -/
def do_key_exchange {SK PK SS : Type} [DecidableEq SS]
    (sch : KeyExchangeScheme SK PK SS) (seedA seedB : ℕ) :
    Except PyError (SK × PK × SK × PK × SS) :=
  let akp := alice_key_pair sch seedA
  let bkp := bob_key_pair sch seedB
  let alice_shared_secret := sch.alice_compute_shared_secret akp.1 bkp.2
  if alice_shared_secret ≠ sch.bob_compute_shared_secret bkp.1 akp.2 then
    .error (.runtimeError "Alice and Bob did not arrive at the same shared secret")
  else .ok (akp.1, akp.2, bkp.1, bkp.2, alice_shared_secret)

/-- The `KeyExchangeBase` method surface of a constructed `SIDH` instance. -/
def SIDH.toScheme {p : ℕ} (s : SIDH p) :
    KeyExchangeScheme ℕ (Curve p × Pt p × Pt p) (Fp2 p) :=
  ⟨s.alice_secret_key, s.bob_secret_key, s.alice_public_key, s.bob_public_key,
    s.alice_compute_shared_secret, s.bob_compute_shared_secret⟩

/-! ## Equality and hashing through `parameters()`

`__eq__` is `isinstance(other, type(self)) and self.parameters() ==
other.parameters()`; `__hash__` is `hash(self.parameters())`.  The repository
instantiates two scheme classes, `SIDH` and `FiniteFieldDiffieHellman`; their
instances and parameter tuples are modelled below. -/

/-- The state of a `FiniteFieldDiffieHellman` instance: the prime and the
generator, stored as its residue in GF(p). -/
structure FFDH where
  p : ℕ
  generator : ℕ
deriving DecidableEq

/-- Source `FiniteFieldDiffieHellman.parameters`: the pair `(field, generator)`, the
field represented by its characteristic. -/
def FFDH.parameters (d : FFDH) : ℕ × ℕ := (d.p, d.generator)

/-- A parameter tuple returned by `parameters()` of either scheme class.
Tuples of the two classes have different component types, so Python tuple
equality across classes is always false; the two constructors model that. -/
inductive KEParams where
  | sidhParams : (q : ℕ) → ℕ × Curve q × Pt q × Pt q × Pt q × Pt q → KEParams
  | dhParams : ℕ × ℕ → KEParams

instance : DecidableEq KEParams := fun a b =>
  match a, b with
  | .sidhParams q t, .sidhParams q' t' =>
    if h : q = q' then
      if h2 : (h ▸ t : ℕ × Curve q' × Pt q' × Pt q' × Pt q' × Pt q') = t' then
        .isTrue (by subst h; subst h2; rfl)
      else .isFalse (by subst h; simpa using h2)
    else .isFalse (by simp [h])
  | .sidhParams _ _, .dhParams _ => .isFalse (by simp)
  | .dhParams _, .sidhParams _ _ => .isFalse (by simp)
  | .dhParams t, .dhParams t' =>
    if h : t = t' then .isTrue (by simp [h]) else .isFalse (by simp [h])

/-- An instance of one of the two key-exchange scheme classes. -/
inductive KEObject where
  | sidhObj : (q : ℕ) → SIDH q → KEObject
  | dhObj : FFDH → KEObject

/-- The `parameters()` tuple of an instance. -/
def KEObject.parameters : KEObject → KEParams
  | .sidhObj q s => .sidhParams q s.parameters
  | .dhObj d => .dhParams d.parameters

/-- The `isinstance(other, type(self))` test between instances of the two
scheme classes. -/
def sameClass : KEObject → KEObject → Bool
  | .sidhObj _ _, .sidhObj _ _ => true
  | .dhObj _, .dhObj _ => true
  | _, _ => false

/-- Source `KeyExchangeBase.__eq__`: the isinstance test conjoined with equality of
the parameter tuples. -/
def pyEq (a b : KEObject) : Bool := sameClass a b && (a.parameters == b.parameters)

/-- Source `KeyExchangeBase.__hash__`: `hash(self.parameters())`.  The Python hash
function on parameter tuples is an arbitrary argument `H`; a `none` result
models an unhashable tuple, in which case the instance is unhashable too. -/
def pyHash (H : KEParams → Option ℤ) (a : KEObject) : Option ℤ := H a.parameters

/-- The state of the `toy` named parameter set: exponents `(4, 3)` and the
fixed curve and basis points over GF(431^2). -/
def toySIDH : SIDH 431 := ⟨4, 3, toyE, toyPA, toyQA, toyPB, toyQB⟩

/-- What it means for a bounded search to behave as a first-match loop over
at most `bound` candidate indices: it returns `none` exactly when no index
below the bound is accepted, and any returned value is the candidate at the
least accepted index. -/
def FirstMatchSpec {α : Type} (bound : ℕ) (f : ℕ → Option α) : Prop :=
  (boundedSearch bound f = none ↔ ∀ c < bound, f c = none) ∧
    ∀ a, boundedSearch bound f = some a →
      ∃ c < bound, f c = some a ∧ ∀ j < c, f j = none

/-! ## Theorems -/

/-- Helper: the toy named set constructs successfully, into `toySIDH`. -/
theorem toy_init_eq : SIDH.init 431 2 toyE toyPA toyQA toyPB toyQB = .ok toySIDH := by
  decide

/-- Helper: a bounded loop returns `none` exactly when no examined index is
accepted. -/
theorem searchFrom_eq_none_iff {α : Type} (f : ℕ → Option α) :
    ∀ n c, searchFrom f n c = none ↔ ∀ k < n, f (c + k) = none := by
  intro n
  induction n with
  | zero => intro c; simp [searchFrom]
  | succ n ih =>
    intro c
    cases h : f c with
    | some a =>
      simp only [searchFrom, h]
      constructor
      · intro hc; cases hc
      · intro hall
        have h0 := hall 0 (Nat.succ_pos n)
        rw [Nat.add_zero, h] at h0
        cases h0
    | none =>
      simp only [searchFrom, h]
      rw [ih (c + 1)]
      constructor
      · intro hall k hk
        cases k with
        | zero => simpa using h
        | succ k =>
          have hh := hall k (by omega)
          have he : c + 1 + k = c + (k + 1) := by omega
          rwa [he] at hh
      · intro hall k hk
        have hh := hall (k + 1) (by omega)
        have he : c + (k + 1) = c + 1 + k := by omega
        rwa [he] at hh

/-- Helper: a bounded loop yields the candidate at the least accepted index. -/
theorem searchFrom_eq_some {α : Type} (f : ℕ → Option α) :
    ∀ n c a, searchFrom f n c = some a →
      ∃ k < n, f (c + k) = some a ∧ ∀ j < k, f (c + j) = none := by
  intro n
  induction n with
  | zero => intro c a h; simp [searchFrom] at h
  | succ n ih =>
    intro c a h
    cases hc : f c with
    | some b =>
      simp only [searchFrom, hc] at h
      refine ⟨0, Nat.succ_pos n, ?_, by omega⟩
      rw [Nat.add_zero, hc, h]
    | none =>
      simp only [searchFrom, hc] at h
      obtain ⟨k, hk, hfk, hmin⟩ := ih (c + 1) a h
      refine ⟨k + 1, by omega, ?_, ?_⟩
      · have he : c + (k + 1) = c + 1 + k := by omega
        rwa [he]
      · intro j hj
        cases j with
        | zero => rw [Nat.add_zero]; exact hc
        | succ j =>
          have hh := hmin j (by omega)
          have he : c + (j + 1) = c + 1 + j := by omega
          rwa [he]

/-- Helper: every bounded search satisfies the first-match specification. -/
theorem boundedSearch_firstMatch {α : Type} (bound : ℕ) (f : ℕ → Option α) :
    FirstMatchSpec bound f := by
  constructor
  · rw [boundedSearch, searchFrom_eq_none_iff]
    constructor
    · intro h c hc; have := h c hc; rwa [Nat.zero_add] at this
    · intro h k hk; rw [Nat.zero_add]; exact h k hk
  · intro a h
    obtain ⟨k, hk, hfk, hmin⟩ := searchFrom_eq_some f bound 0 a h
    rw [Nat.zero_add] at hfk
    refine ⟨k, hk, hfk, fun j hj => ?_⟩
    have := hmin j hj
    rwa [Nat.zero_add] at this

/-- C4: for every `SIDH` instance and every secret key `k`,
`alice_public_key k` is exactly the codomain of the factored isogeny with
kernel generator `PA + k * QA` together with the images of `PB` and `QB`
under it, and symmetrically `bob_public_key k` is the codomain of the
factored isogeny with kernel generator `PB + k * QB` together with the
images of `PA` and `QA`. -/
theorem public_keys_from_secret_isogeny (p : ℕ) (s : SIDH p) (k : ℕ) :
    s.alice_public_key k =
      ((factoredIsogeny s.E (addPt s.E s.PA (smul s.E k s.QA))).codomain,
       (factoredIsogeny s.E (addPt s.E s.PA (smul s.E k s.QA))).eval s.PB,
       (factoredIsogeny s.E (addPt s.E s.PA (smul s.E k s.QA))).eval s.QB) ∧
    s.bob_public_key k =
      ((factoredIsogeny s.E (addPt s.E s.PB (smul s.E k s.QB))).codomain,
       (factoredIsogeny s.E (addPt s.E s.PB (smul s.E k s.QB))).eval s.PA,
       (factoredIsogeny s.E (addPt s.E s.PB (smul s.E k s.QB))).eval s.QA) :=
  ⟨rfl, rfl⟩

/-- C5: `secret_isogeny_path C k P Q` returns the factored isogeny whose
kernel generator is `P + k * Q`, and the path of j-invariants starting with
that of `C` followed by that of the codomain of each prime-degree factor of
the decomposition. -/
theorem secret_isogeny_path_characterization (p : ℕ) (C : Curve p) (k : ℕ)
    (P Q : Pt p) :
    (secret_isogeny_path C k P Q).1 = factoredIsogeny C (addPt C P (smul C k Q)) ∧
    (secret_isogeny_path C k P Q).2 =
      jInv C ::
        (factoredIsogeny C (addPt C P (smul C k Q))).factors.map
          fun st => jInv st.codomain :=
  ⟨rfl, rfl⟩

/-- C2: `do_key_exchange` generates both key pairs, computes both parties'
shared secrets, raises the shared-secret mismatch error exactly when they
differ, and otherwise returns the 5-tuple of all artifacts. -/
theorem do_key_exchange_characterization {SK PK SS : Type} [DecidableEq SS]
    (sch : KeyExchangeScheme SK PK SS) (seedA seedB : ℕ) :
    do_key_exchange sch seedA seedB =
      (if sch.alice_compute_shared_secret (sch.alice_secret_key seedA)
            (sch.bob_public_key (sch.bob_secret_key seedB)) =
          sch.bob_compute_shared_secret (sch.bob_secret_key seedB)
            (sch.alice_public_key (sch.alice_secret_key seedA))
       then .ok (sch.alice_secret_key seedA,
                 sch.alice_public_key (sch.alice_secret_key seedA),
                 sch.bob_secret_key seedB,
                 sch.bob_public_key (sch.bob_secret_key seedB),
                 sch.alice_compute_shared_secret (sch.alice_secret_key seedA)
                   (sch.bob_public_key (sch.bob_secret_key seedB)))
       else .error (.runtimeError
          "Alice and Bob did not arrive at the same shared secret")) ∧
    ((do_key_exchange sch seedA seedB).isOk = true ↔
      sch.alice_compute_shared_secret (sch.alice_secret_key seedA)
          (sch.bob_public_key (sch.bob_secret_key seedB)) =
        sch.bob_compute_shared_secret (sch.bob_secret_key seedB)
          (sch.alice_public_key (sch.alice_secret_key seedA))) := by
  by_cases h : sch.alice_compute_shared_secret (sch.alice_secret_key seedA)
      (sch.bob_public_key (sch.bob_secret_key seedB)) =
    sch.bob_compute_shared_secret (sch.bob_secret_key seedB)
      (sch.alice_public_key (sch.alice_secret_key seedA)) <;>
    constructor <;>
    simp [do_key_exchange, alice_key_pair, bob_key_pair, h, Except.isOk,
      Except.toBool]

/-- C3 (code bug): for an unrecognized name, the final branch of
`SIDH.named_parameter_set` calls the base implementation without passing the
required `name` argument, so it raises a `TypeError` about the missing
argument; the unknown-name `ValueError` of `KeyExchangeBase`, which does name
the class and the offending name, is never produced, and the two errors
differ. -/
theorem named_parameter_set_unknown_name_bug :
    SIDH.named_parameter_set "bogus" =
      .error (.typeError
        "named_parameter_set missing 1 required positional argument: name") ∧
    KeyExchangeBase.named_parameter_set ((q : ℕ) × SIDH q) "SIDH" "bogus" =
      .error (.valueError "Unknown parameter set name \"bogus\" for SIDH") ∧
    PyError.typeError
        "named_parameter_set missing 1 required positional argument: name" ≠
      PyError.valueError "Unknown parameter set name \"bogus\" for SIDH" := by
  refine ⟨rfl, rfl, by simp⟩

/-- C6: on every instance built by `SIDH.__init__`, every sampled Alice
secret key lies in the inclusive range `[0, e_A]` and every sampled Bob
secret key lies in `[0, e_B]`, where `e_A` and `e_B` are the 2-adic and
3-adic valuations of `p + 1` derived at construction. -/
theorem secret_keys_in_range (p fd : ℕ) (E : Curve p) (PA QA PB QB : Pt p)
    (s : SIDH p) (h : SIDH.init p fd E PA QA PB QB = .ok s)
    (seedA seedB : ℕ) :
    0 ≤ s.alice_secret_key seedA ∧
    s.alice_secret_key seedA ≤ adicVal 2 (p + 1) ∧
    0 ≤ s.bob_secret_key seedB ∧
    s.bob_secret_key seedB ≤ adicVal 3 (p + 1) := by
  have hs : s = ⟨adicVal 2 (p + 1), adicVal 3 (p + 1), E, PA, QA, PB, QB⟩ := by
    simp only [SIDH.init] at h
    split_ifs at h <;> simp_all
  rw [hs]
  refine ⟨Nat.zero_le _, ?_, Nat.zero_le _, ?_⟩
  · exact Nat.lt_succ_iff.mp (Nat.mod_lt _ (Nat.succ_pos _))
  · exact Nat.lt_succ_iff.mp (Nat.mod_lt _ (Nat.succ_pos _))

/-- C6 witness: the toy instance, with concrete seeds. -/
theorem secret_keys_in_range_witness :
    SIDH.init 431 2 toyE toyPA toyQA toyPB toyQB = .ok toySIDH ∧
    (0 ≤ toySIDH.alice_secret_key 7 ∧
     toySIDH.alice_secret_key 7 ≤ adicVal 2 (431 + 1) ∧
     0 ≤ toySIDH.bob_secret_key 11 ∧
     toySIDH.bob_secret_key 11 ≤ adicVal 3 (431 + 1)) :=
  ⟨toy_init_eq,
    secret_keys_in_range 431 2 toyE toyPA toyQA toyPB toyQB toySIDH toy_init_eq 7 11⟩

/-- C9: instance equality agrees with equality of the `parameters()` tuples
(the isinstance test never rejects a pair whose parameter tuples are equal,
because tuples of distinct scheme classes are never equal), and the instance
hash is exactly the hash of the `parameters()` tuple, so an instance is
hashable exactly when its parameter tuple is. -/
theorem eq_and_hash_through_parameters (a b : KEObject)
    (H : KEParams → Option ℤ) :
    pyEq a b = (a.parameters == b.parameters) ∧ pyHash H a = H a.parameters := by
  refine ⟨?_, rfl⟩
  cases a <;> cases b <;>
    simp [pyEq, sameClass, KEObject.parameters, beq_eq_false_iff_ne]

/-- C10: `SIDH.parameters` returns exactly the 6-tuple
`(p, E, PA, QA, PB, QB)`: the base-field characteristic followed by the five
values fixed at construction, in that order. -/
theorem parameters_full_tuple (p fd : ℕ) (E : Curve p) (PA QA PB QB : Pt p)
    (s : SIDH p) (h : SIDH.init p fd E PA QA PB QB = .ok s) :
    s.parameters = (p, E, PA, QA, PB, QB) := by
  have hs : s = ⟨adicVal 2 (p + 1), adicVal 3 (p + 1), E, PA, QA, PB, QB⟩ := by
    simp only [SIDH.init] at h
    split_ifs at h <;> simp_all
  rw [hs]
  rfl

/-- C10 witness: the toy instance. -/
theorem parameters_full_tuple_witness :
    SIDH.init 431 2 toyE toyPA toyQA toyPB toyQB = .ok toySIDH ∧
    toySIDH.parameters = (431, toyE, toyPA, toyQA, toyPB, toyQB) :=
  ⟨toy_init_eq,
    parameters_full_tuple 431 2 toyE toyPA toyQA toyPB toyQB toySIDH toy_init_eq⟩

/-- Helper: `SIDH.__init__` never raises the prime-validation message. -/
theorem init_ne_prime_error (p fd : ℕ) (E : Curve p) (PA QA PB QB : Pt p) :
    SIDH.init p fd E PA QA PB QB ≠ .error (.valueError "p must be prime") := by
  simp only [SIDH.init]
  split_ifs <;> simp

/-- C7 counterexample: 3 is prime, yet `parameter_set_from_prime 3` fails —
with the basis-derivation error for `QA`, a failure cause outside the
claimed list. -/
theorem parameter_set_from_prime_fails_on_prime_three :
    Nat.Prime 3 ∧
    parameter_set_from_prime 3 = .error (.valueError
      "failed to find QA, try using SIDH constructor directly and specify all parameters") :=
  ⟨by norm_num, by decide⟩

/-- C7 (amended): the direct constructor fails exactly when the
characteristic does not factor as `2^e_A * 3^e_B - 1`, the base field is not
a degree-2 extension, or one of the four points is off the curve; and
`parameter_set_from_prime` raises the prime-validation error exactly when
its input is not prime — a prime input can still fail, through the
basis-derivation errors of the four searches or the constructor checks. -/
theorem sidh_construction_failure_characterization (p fd : ℕ) (E : Curve p)
    (PA QA PB QB : Pt p) :
    ((SIDH.init p fd E PA QA PB QB).isOk = true ↔
      (2 ^ adicVal 2 (p + 1) * 3 ^ adicVal 3 (p + 1) - 1 = p ∧ fd = 2 ∧
        onCurve E PA = true ∧ onCurve E QA = true ∧ onCurve E PB = true ∧
        onCurve E QB = true)) ∧
    ∀ n : ℕ,
      (parameter_set_from_prime n = .error (.valueError "p must be prime") ↔
        isPrime n = false) := by
  constructor
  · simp only [SIDH.init]
    split_ifs <;> simp_all [Except.isOk, Except.toBool]
  · intro n
    cases hp : isPrime n with
    | false => simp [parameter_set_from_prime, hp]
    | true =>
      constructor
      · intro h
        exfalso
        simp only [parameter_set_from_prime, hp, eq_self_iff_true, if_true] at h
        repeat' split at h
        all_goals
          first
          | simp at h
          | exact init_ne_prime_error _ _ _ _ _ _ _ h
      · intro h
        exact Bool.noConfusion h

/-- C8: for every prime `p`, each of the four trial-point search loops of
`parameter_set_from_prime` is a bounded first-match loop over at most `p`
candidate indices: it yields the candidate at the least accepted index below
`p`, and when all `p` indices are exhausted without an accepted candidate the
enclosing function terminates with the corresponding explicit
basis-derivation error instead of looping on. -/
theorem psfp_search_loops_bounded (p : ℕ) (hp : Nat.Prime p) :
    FirstMatchSpec p (candPA p) ∧ FirstMatchSpec p (candQA p) ∧
    FirstMatchSpec p (candPB p) ∧ FirstMatchSpec p (candQB p) ∧
    (boundedSearch p (candPA p) = none →
      parameter_set_from_prime p = .error (.valueError
        "failed to find PA, try using SIDH constructor directly and specify all parameters")) ∧
    (∀ PA, boundedSearch p (candPA p) = some PA →
      boundedSearch p (candQA p) = none →
      parameter_set_from_prime p = .error (.valueError
        "failed to find QA, try using SIDH constructor directly and specify all parameters")) ∧
    (∀ PA QA, boundedSearch p (candPA p) = some PA →
      boundedSearch p (candQA p) = some QA →
      boundedSearch p (candPB p) = none →
      parameter_set_from_prime p = .error (.valueError
        "failed to find PB, try using SIDH constructor directly and specify all parameters")) ∧
    (∀ PA QA PB, boundedSearch p (candPA p) = some PA →
      boundedSearch p (candQA p) = some QA →
      boundedSearch p (candPB p) = some PB →
      boundedSearch p (candQB p) = none →
      parameter_set_from_prime p = .error (.valueError
        "failed to find QB, try using SIDH constructor directly and specify all parameters")) := by
  have hpr : isPrime p = true := by
    have hm := Nat.prime_def_minFac.mp hp
    simp [isPrime, hm.1, hm.2]
  refine ⟨boundedSearch_firstMatch p (candPA p),
    boundedSearch_firstMatch p (candQA p),
    boundedSearch_firstMatch p (candPB p),
    boundedSearch_firstMatch p (candQB p), ?_, ?_, ?_, ?_⟩
  · intro h
    simp [parameter_set_from_prime, hpr, h]
  · intro PA h1 h2
    simp [parameter_set_from_prime, hpr, h1, h2]
  · intro PA QA h1 h2 h3
    simp [parameter_set_from_prime, hpr, h1, h2, h3]
  · intro PA QA PB h1 h2 h3 h4
    simp [parameter_set_from_prime, hpr, h1, h2, h3, h4]

/-- C8 witness: the search-loop bounds instantiated at the prime 3. -/
theorem psfp_search_loops_bounded_witness :
    Nat.Prime 3 ∧
    (FirstMatchSpec 3 (candPA 3) ∧ FirstMatchSpec 3 (candQA 3) ∧
    FirstMatchSpec 3 (candPB 3) ∧ FirstMatchSpec 3 (candQB 3) ∧
    (boundedSearch 3 (candPA 3) = none →
      parameter_set_from_prime 3 = .error (.valueError
        "failed to find PA, try using SIDH constructor directly and specify all parameters")) ∧
    (∀ PA, boundedSearch 3 (candPA 3) = some PA →
      boundedSearch 3 (candQA 3) = none →
      parameter_set_from_prime 3 = .error (.valueError
        "failed to find QA, try using SIDH constructor directly and specify all parameters")) ∧
    (∀ PA QA, boundedSearch 3 (candPA 3) = some PA →
      boundedSearch 3 (candQA 3) = some QA →
      boundedSearch 3 (candPB 3) = none →
      parameter_set_from_prime 3 = .error (.valueError
        "failed to find PB, try using SIDH constructor directly and specify all parameters")) ∧
    (∀ PA QA PB, boundedSearch 3 (candPA 3) = some PA →
      boundedSearch 3 (candQA 3) = some QA →
      boundedSearch 3 (candPB 3) = some PB →
      boundedSearch 3 (candQB 3) = none →
      parameter_set_from_prime 3 = .error (.valueError
        "failed to find QB, try using SIDH constructor directly and specify all parameters"))) :=
  ⟨by norm_num, psfp_search_loops_bounded 3 (by norm_num)⟩

set_option maxRecDepth 10000 in
set_option maxHeartbeats 8000000 in
/-- Supporting evidence for the consistency property: on the toy parameter
set, for every pair of secret keys (all of `[0, e_A] × [0, e_B]`), Alice's
and Bob's shared-secret computations agree after an honest exchange of
public keys.  The universal statement over all parameter sets is the
isogeny-diagram commutativity theorem and is not derived here. -/
theorem toy_exchange_consistency :
    ∀ a < 5, ∀ b < 4,
      toySIDH.alice_compute_shared_secret a (toySIDH.bob_public_key b) =
        toySIDH.bob_compute_shared_secret b (toySIDH.alice_public_key a) := by
  decide

end SageKE
